import Mathlib

/-!
Verification development for the chatbot backend (`src/chat/chat.service.ts`,
`src/chat/chat.controller.ts`, `src/chat/openai/openai.service.ts`, the
`UserQueryDto`).  The TypeScript methods are shallowly embedded as Lean
functions: external effects (the OpenAI completion call, the FastForex HTTP
fetch, the CSV catalog stream) become explicit inputs, JavaScript numbers
become exact fractions, and code paths that throw become `Except` errors.
-/

/- ===================== Numbers ===================== -/

/-- An exact fraction `n / d`, the model of a JavaScript number.  The
denominator is kept positive in every value the embedding builds; values are
not normalised, and every operation is structurally recursive so that proofs
can evaluate them inside the kernel. -/
structure Frac where
  n : Int
  d : Nat
deriving DecidableEq

/-- Fraction with integer value `k`. -/
def Frac.ofInt (k : Int) : Frac := ⟨k, 1⟩

/-- Multiplication of fractions. -/
def Frac.mul (x y : Frac) : Frac := ⟨x.n * y.n, x.d * y.d⟩

/-- Floor of a fraction (denominator positive). -/
def Frac.floor (x : Frac) : Int := Int.fdiv x.n x.d

/-- Fractional part `x - ⌊x⌋` of a fraction, as a numerator over the same
denominator. -/
def Frac.fracPart (x : Frac) : Frac := ⟨Int.fmod x.n x.d, x.d⟩

/-- Negation of a fraction (for a parsed leading minus sign). -/
def Frac.neg (x : Frac) : Frac := ⟨-x.n, x.d⟩

/- ===================== JavaScript string primitives ===================== -/

/-- Does `needle` occur at the very start of `hay`?  Helper for the embedding
of `String.prototype.includes`. -/
def firstMatches : List Char → List Char → Bool
  | [], _ => true
  | _ :: _, [] => false
  | a :: as, b :: bs => a == b && firstMatches as bs

/-- Does `needle` occur contiguously anywhere in the character list? -/
def containsSeq (needle : List Char) : List Char → Bool
  | [] => firstMatches needle []
  | c :: rest => firstMatches needle (c :: rest) || containsSeq needle rest

/-- Embedding of JavaScript `hay.includes(needle)` (substring containment;
`hay.includes("")` is `true`). -/
def jsIncludes (hay needle : String) : Bool :=
  containsSeq needle.data hay.data

/-- Embedding of JavaScript `s.toLowerCase()` (character-wise lowering). -/
def jsToLower (s : String) : String :=
  ⟨s.data.map Char.toLower⟩

/-- Embedding of JavaScript `s.trim()`: strip whitespace from both ends of a
character list. -/
def trimChars (cs : List Char) : List Char :=
  ((cs.dropWhile Char.isWhitespace).reverse.dropWhile Char.isWhitespace).reverse

/-- Embedding of JavaScript `s.split('-')`: cut the character list at every
hyphen; always returns at least one (possibly empty) segment. -/
def splitHyphen : List Char → List (List Char)
  | [] => [[]]
  | c :: rest =>
    match splitHyphen rest with
    | [] => [[]]
    | seg :: segs => if c = '-' then [] :: seg :: segs else (c :: seg) :: segs

/-- Value of a list of decimal digit characters. -/
def digitsVal (ds : List Char) : Nat :=
  ds.foldl (fun a c => a * 10 + (c.toNat - 48)) 0

/-- Parse an unsigned decimal number (`digits`, `digits.digits`, `.digits`)
from the front of a character list; `none` models `NaN`.  Exponent notation,
which the service never receives, is not modelled. -/
def parseFloatCore (cs : List Char) : Option Frac :=
  let intDs := cs.takeWhile Char.isDigit
  let rest := cs.dropWhile Char.isDigit
  match rest with
  | '.' :: rest2 =>
    let fracDs := rest2.takeWhile Char.isDigit
    if intDs.isEmpty && fracDs.isEmpty then none
    else
      some ⟨((digitsVal intDs * 10 ^ fracDs.length + digitsVal fracDs : Nat) : Int),
        10 ^ fracDs.length⟩
  | _ =>
    if intDs.isEmpty then none else some ⟨((digitsVal intDs : Nat) : Int), 1⟩

/-- Embedding of JavaScript `parseFloat`: skip leading whitespace, optional
sign, then the longest numeric prefix; `none` models `NaN`. -/
def parseFloatChars (cs : List Char) : Option Frac :=
  match cs.dropWhile Char.isWhitespace with
  | '-' :: rest => (parseFloatCore rest).map Frac.neg
  | '+' :: rest => parseFloatCore rest
  | other => parseFloatCore other

/-- `parseFloat` on a Lean string. -/
def jsParseFloat (s : String) : Option Frac :=
  parseFloatChars s.data

/-- Round a fraction to the nearest integer, halves upward (the rounding
`Number.prototype.toFixed` performs): `⌊x + 1/2⌋ = ⌊(2n + d) / 2d⌋`. -/
def roundQ (x : Frac) : Int :=
  Int.fdiv (2 * x.n + x.d) (2 * x.d)

/-- Two-digit zero-padded rendering of a natural number below 100. -/
def pad2 (n : Nat) : String :=
  if n < 10 then "0" ++ toString n else toString n

/-- Embedding of JavaScript `x.toFixed(2)`. -/
def toFixed2 (q : Frac) : String :=
  let n := roundQ ⟨q.n * 100, q.d⟩
  (if n < 0 then "-" else "") ++ toString (n.natAbs / 100) ++ "." ++ pad2 (n.natAbs % 100)

/-- Decimal digits of the fractional part `r` (with `0 ≤ r < 1`), up to the
given number of digits (JavaScript prints finitely many digits). -/
def fracDigits : Nat → Frac → String
  | 0, _ => ""
  | fuel + 1, r =>
    if r.n = 0 then ""
    else
      let r10 : Frac := ⟨r.n * 10, r.d⟩
      toString r10.floor.toNat ++ fracDigits fuel r10.fracPart

/-- Rendering of a JavaScript number in a template literal (`${x}`): integers
print without a decimal point, other values with their decimal expansion. -/
def renderNum (q : Frac) : String :=
  let a : Frac := ⟨|q.n|, q.d⟩
  (if q.n < 0 then "-" else "") ++ toString a.floor.toNat ++
    (if a.fracPart.n = 0 then "" else "." ++ fracDigits 17 a.fracPart)

/-- JavaScript `x || d` on an optional string: `undefined`, `null` and the
empty string are falsy and select the default. -/
def jsOrElse (o : Option String) (d : String) : String :=
  match o with
  | some s => if s = "" then d else s
  | none => d

/-- Rendering of a possibly-`undefined` string in a template literal. -/
def jsStr (o : Option String) : String :=
  match o with
  | some s => s
  | none => "undefined"

/- ===================== Currency converter ===================== -/

/-- A JSON-decoded `amount` argument: the TypeScript parameter type is
`number | string`, and the field may also be absent (`undefined`). -/
inductive JsAmount
  | num (q : Frac)
  | str (s : String)
  | undef
deriving DecidableEq

/-- Rendering of the raw `amount` value in a template literal. -/
def renderAmount : JsAmount → String
  | JsAmount.num q => renderNum q
  | JsAmount.str s => s
  | JsAmount.undef => "undefined"

/-- The FastForex `results` object: a finite map from currency code to rate,
embedded as an association list with JavaScript object lookup. -/
def lookupRate (rates : List (String × Frac)) (c : String) : Option Frac :=
  (rates.find? (fun p => p.1 == c)).map (fun p => p.2)

/-- One line of the single-amount loop body:
`` `${numericAmount} ${fromCurrency} ≈ ${convertedAmount.toFixed(2)} ${currency}` ``. -/
def singleResult (amt : Frac) (fromCurrency : String) (cr : String × Frac) : String :=
  renderNum amt ++ " " ++ fromCurrency ++ " ≈ " ++ toFixed2 (amt.mul cr.2) ++ " " ++ cr.1

/-- The range branch of `convertCurrencies` (`chat.service.ts` lines
199–217): split on every hyphen, trim, parse both bounds, then convert both
with the single rate for `toCurrency` (a falsy rate — absent or zero — yields
the "not available" message). -/
def convertRange (rates : List (String × Frac)) (amount : String)
    (fromCurrency toCurrency : String) : String :=
  let parts := (splitHyphen amount.data).map trimChars
  match parseFloatChars (parts.getD 0 []), parseFloatChars (parts.getD 1 []) with
  | some mn, some mx =>
    match lookupRate rates toCurrency with
    | some rate =>
      if rate.n = 0 then "Conversion rate not available for " ++ toCurrency ++ "."
      else
        amount ++ " " ++ fromCurrency ++ " ≈ " ++ toFixed2 (mn.mul rate) ++ " - " ++
          toFixed2 (mx.mul rate) ++ " " ++ toCurrency
    | none => "Conversion rate not available for " ++ toCurrency ++ "."
  | _, _ => "Invalid amount range: \"" ++ amount ++ "\"."

/-- Body of `convertCurrencies` after the rates have been fetched
(`chat.service.ts` lines 194–231). -/
def convertWithRates (rates : List (String × Frac)) (amount : JsAmount)
    (fromCurrency toCurrency : String) : String :=
  if rates.isEmpty then
    "No conversion rates found for " ++ fromCurrency ++ " to " ++ toCurrency ++ "."
  else
    match amount with
    | JsAmount.str s =>
      if jsIncludes s "-" then convertRange rates s fromCurrency toCurrency
      else
        match jsParseFloat s with
        | none => "Invalid amount: " ++ s
        | some q => String.intercalate " | " (rates.map (singleResult q fromCurrency))
    | JsAmount.num q => String.intercalate " | " (rates.map (singleResult q fromCurrency))
    | JsAmount.undef => "Invalid amount: undefined"

/-- Embedding of `ChatService.convertCurrencies` (lines 186–236): the
outbound FastForex call is an explicit input; a failed fetch is caught by the
`try/catch` and becomes the fixed error string, so the method always returns
a string. -/
def convertCurrencies (fetch : Except Unit (List (String × Frac))) (amount : JsAmount)
    (fromCurrency toCurrency : String) : String :=
  match fetch with
  | Except.error _ => "An error occurred while converting currencies."
  | Except.ok rates => convertWithRates rates amount fromCurrency toCurrency

/- ===================== Product search ===================== -/

/-- Mirror of the `Product` interface in `chat.service.ts`. -/
structure Product where
  displayTitle : String
  embeddingText : String
  url : String
  imageUrl : String
  productType : String
  discount : Frac
  price : String
  variants : String
  createDate : String
deriving DecidableEq

/-- The per-row match test of `searchProducts` (lines 139–145): the lowered
query is searched in the lowered title and the lowered description. -/
def productMatches (p : Product) (query : String) : Bool :=
  jsIncludes (jsToLower p.displayTitle) (jsToLower query) ||
    jsIncludes (jsToLower p.embeddingText) (jsToLower query)

/-- The `matchedResults` array at the end of the stream: all matching rows in
catalog order. -/
def matchedResults (catalog : List Product) (query : String) : List Product :=
  catalog.filter (fun p => productMatches p query)

/-- The `selectedProducts` local (lines 150–158): first two matches, or two
entries of the shuffled catalog when nothing matched.  The random comparator
shuffle is an explicit input. -/
def selectedProducts (shuffle : List Product → List Product)
    (catalog : List Product) (query : String) : List Product :=
  if (matchedResults catalog query).length > 0 then (matchedResults catalog query).take 2
  else (shuffle catalog).take 2

/-- The "related" header produced on the match branch (line 155). -/
def relatedHeader (query : String) : String :=
  "Here are some products related to your query: \"" ++ query ++ "\"\n"

/-- The fallback header produced when nothing matched (line 159). -/
def fallbackHeader (query : String) : String :=
  "I couldn’t find specific products for \"" ++ query ++ "\", but here are a couple of suggestions:\n"

/-- The `messageHeader` local (lines 151–160). -/
def messageHeader (catalog : List Product) (query : String) : String :=
  if (matchedResults catalog query).length > 0 then relatedHeader query
  else fallbackHeader query

/-- One numbered product block of the `formatted` string (lines 162–169). -/
def formatProduct (i : Nat) (p : Product) : String :=
  toString (i + 1) ++ ". **" ++ p.displayTitle ++ "**\n" ++
    "   - " ++ p.embeddingText ++ "\n" ++
    "   - Price: $" ++ p.price ++ " USD"

/-- The `formatted` string: blocks joined with a blank line. -/
def formatProducts (ps : List Product) : String :=
  String.intercalate "\n\n" (ps.mapIdx formatProduct)

/-- The string `searchProducts` resolves with (line 171). -/
def searchText (shuffle : List Product → List Product)
    (catalog : List Product) (query : String) : String :=
  messageHeader catalog query ++ "\n" ++
    formatProducts (selectedProducts shuffle catalog query) ++
    "\n\nWould any of these interest you?"

/-- Runtime errors the orchestrator can hit: `JSON.parse` on a malformed
argument blob, `undefined.toLowerCase()` when the `query` argument is absent,
and the rejected promise when the catalog stream errors. -/
inductive JsError
  | jsonParse
  | typeErrorUndefined
  | catalogStream
deriving DecidableEq

/-- Embedding of `ChatService.searchProducts` (lines 130–175).  The CSV read
is an explicit input; an unreadable catalog rejects the promise
(`.on('error', (err) => reject(err))`, line 173), and an `undefined` query on
a non-empty catalog throws a `TypeError` inside the `data` handler
(`query.toLowerCase()`, line 139). -/
def searchProducts (catalogRead : Except Unit (List Product))
    (shuffle : List Product → List Product) (q : Option String) :
    Except JsError String :=
  match catalogRead with
  | Except.error _ => Except.error JsError.catalogStream
  | Except.ok catalog =>
    match q with
    | some s => Except.ok (searchText shuffle catalog s)
    | none =>
      if catalog.isEmpty then Except.ok (searchText shuffle catalog "undefined")
      else Except.error JsError.typeErrorUndefined

/- ===================== Query orchestrator ===================== -/

/-- The typed argument record a JSON argument blob decodes to; absent fields
are `none` / `undef`. -/
structure ParsedArgs where
  query : Option String := none
  amount : JsAmount := JsAmount.undef
  fromCurrency : Option String := none
  toCurrency : Option String := none
deriving DecidableEq

/-- A `function_call.arguments` blob, partitioned by how
`JSON.parse(functionArgs || '{}')` treats it: absent or empty (falsy, parsed
as `{}`), well-formed JSON encoding some argument record, or malformed JSON
(on which `JSON.parse` throws). -/
inductive ArgsBlob
  | absent
  | wellFormed (a : ParsedArgs)
  | malformed
deriving DecidableEq

/-- A `function_call` field of a completion reply. -/
structure FunctionCall where
  name : String
  arguments : ArgsBlob
deriving DecidableEq

/-- A completion-provider reply message (`chatCompletion.choices[0].message`):
optional text content and an optional function-call request. -/
structure AssistantMsg where
  content : Option String := none
  function_call : Option FunctionCall := none
deriving DecidableEq

/-- A transcript entry (`ChatCompletionMessageParam`): the seeded user
message, an appended assistant reply, or a function-result message. -/
inductive Message
  | user (content : String)
  | assistant (m : AssistantMsg)
  | function (name : String) (content : String)
deriving DecidableEq

/-- The external collaborators of one request: the catalog read, the random
shuffle, and the FastForex fetch. -/
structure Env where
  catalogRead : Except Unit (List Product)
  shuffle : List Product → List Product
  fetch : Except Unit (List (String × Frac))

/-- `JSON.parse(functionArgs || '{}')` (line 97): absent or empty blobs parse
as the empty object, malformed blobs throw. -/
def parseArgs : ArgsBlob → Except JsError ParsedArgs
  | ArgsBlob.absent => Except.ok {}
  | ArgsBlob.wellFormed a => Except.ok a
  | ArgsBlob.malformed => Except.error JsError.jsonParse

/-- The function-name dispatch (lines 99–107): `searchProducts`,
`convertCurrencies`, or the silently empty result for an unknown name. -/
def dispatchCall (env : Env) (functionName : String) (args : ParsedArgs) :
    Except JsError String :=
  if functionName = "searchProducts" then
    searchProducts env.catalogRead env.shuffle args.query
  else if functionName = "convertCurrencies" then
    Except.ok (convertCurrencies env.fetch args.amount
      (jsStr args.fromCurrency) (jsStr args.toCurrency))
  else Except.ok ""

/-- One dispatch step: parse the argument blob, then route by name. -/
def stepResult (env : Env) (fc : FunctionCall) : Except JsError String :=
  match parseArgs fc.arguments with
  | Except.error e => Except.error e
  | Except.ok args => dispatchCall env fc.name args

/-- The `while (currentResponse.function_call && step < maxSteps)` loop
(lines 92–120), structurally recursive on the remaining fuel
`maxSteps - step`.  `idx` numbers the next completion-provider call; the
oracle `replies` gives the provider's reply to each call. -/
def chatLoop (replies : Nat → AssistantMsg) (env : Env) :
    Nat → Nat → List Message → AssistantMsg → Except JsError (String × List Message)
  | 0, _, msgs, resp => Except.ok (jsOrElse resp.content "[No final response]", msgs)
  | fuel + 1, idx, msgs, resp =>
    match resp.function_call with
    | none => Except.ok (jsOrElse resp.content "[No final response]", msgs)
    | some fc =>
      match stepResult env fc with
      | Except.error e => Except.error e
      | Except.ok functionResult =>
        chatLoop replies env fuel (idx + 1)
          (msgs ++ [Message.assistant resp, Message.function fc.name functionResult])
          (replies idx)

/-- Embedding of `ChatService.processUserQuery` (lines 41–121): seed the
transcript with the single user message, obtain the first reply, and run the
bounded loop (`maxSteps = 5`).  On success it returns the final output string
together with the accumulated transcript. -/
def processUserQuery (replies : Nat → AssistantMsg) (env : Env) (query : String) :
    Except JsError (String × List Message) :=
  chatLoop replies env 5 1 [Message.user query] (replies 0)

/- ===================== HTTP layer ===================== -/

/-- A JSON value in the inbound body's `query` position. -/
inductive JsonVal
  | str (s : String)
  | num (q : Frac)
  | boolean (b : Bool)
  | null
  | missing
deriving DecidableEq

/-- Outcome of the `POST /chat` endpoint before the orchestrator's answer:
either rejected by validation or forwarded to `processUserQuery`. -/
inductive HttpOutcome
  | rejected
  | processed (q : String)
deriving DecidableEq

/-- Is the JSON value a string? -/
def isStringVal : JsonVal → Bool
  | JsonVal.str _ => true
  | _ => false

/-- Modelled from the spec: the NestJS validation pipe wiring (the `main.ts`
bootstrap is not under `src/`) rejects a body violating `UserQueryDto` with a
client error; the DTO's only declared constraint is `@IsString()` on `query`
(`user-query.dto.ts`), which any string — including the empty one —
satisfies.  A conforming body is forwarded to
`chatService.processUserQuery(dto.query)` (`chat.controller.ts` line 11). -/
def handleUserQuery (body : JsonVal) : HttpOutcome :=
  match body with
  | JsonVal.str s => HttpOutcome.processed s
  | _ => HttpOutcome.rejected

/- ===================== Transcript predicates ===================== -/

/-- Is the entry a user message? -/
def isUserMsg : Message → Bool
  | Message.user _ => true
  | _ => false

/-- Does the transcript begin with a user message? -/
def startsWithUser : List Message → Bool
  | Message.user _ :: _ => true
  | _ => false

/-- Number of user messages in a transcript. -/
def userCount (msgs : List Message) : Nat :=
  (msgs.filter isUserMsg).length

/-- Adjacency condition of the spec invariant: a function-result message must
be preceded by an assistant message requesting a call of the same name. -/
def adjOK : Message → Message → Bool
  | prev, Message.function nm _ =>
    match prev with
    | Message.assistant m =>
      match m.function_call with
      | some fc => fc.name == nm
      | none => false
    | _ => false
  | _, _ => true

/-- Every consecutive pair of the transcript satisfies `adjOK`. -/
def chainOK : List Message → Bool
  | [] => true
  | [_] => true
  | a :: b :: rest => adjOK a b && chainOK (b :: rest)

/-- The transcript property of the claim: starts with a user message, has
exactly one user message, and every function-result message immediately
follows the assistant message requesting a call of the same name. -/
def transcriptOK (msgs : List Message) : Bool :=
  startsWithUser msgs && (userCount msgs == 1) && chainOK msgs

/-- The tail of the transcript after the seeded user message is a sequence of
(assistant function-call request, matching function-result) pairs. -/
def validPairs : List Message → Bool
  | [] => true
  | Message.assistant m :: Message.function nm c :: rest =>
    adjOK (Message.assistant m) (Message.function nm c) && validPairs rest
  | _ => false

/- ===================== Concrete instances ===================== -/

/-- A sample catalog entry matching the query "phone". -/
def pPhone : Product :=
  { displayTitle := "Astro Phone 12", embeddingText := "A smartphone with a bright screen",
    url := "", imageUrl := "", productType := "electronics", discount := Frac.ofInt 0,
    price := "299", variants := "", createDate := "" }

/-- A sample catalog entry not matching the query "phone". -/
def pMug : Product :=
  { displayTitle := "Coffee Mug", embeddingText := "Ceramic cup for hot drinks",
    url := "", imageUrl := "", productType := "home", discount := Frac.ofInt 0,
    price := "9", variants := "", createDate := "" }

/-- A two-entry sample catalog. -/
def demoCatalog : List Product := [pPhone, pMug]

/-- A healthy environment: readable catalog, identity shuffle, one USD rate. -/
def demoEnv : Env :=
  { catalogRead := Except.ok demoCatalog, shuffle := id,
    fetch := Except.ok [("USD", ⟨11, 10⟩)] }

/-- An environment whose catalog file is unreadable. -/
def envBadCatalog : Env :=
  { catalogRead := Except.error (), shuffle := id,
    fetch := Except.ok [("USD", ⟨11, 10⟩)] }

/-- A reply requesting `convertCurrencies` with an absent argument blob. -/
def callConvertAbsent : AssistantMsg :=
  { content := none,
    function_call := some { name := "convertCurrencies", arguments := ArgsBlob.absent } }

/-- A plain-text reply. -/
def textReply (s : String) : AssistantMsg :=
  { content := some s, function_call := none }

/-- Oracle: first a `convertCurrencies` call with absent arguments, then a
plain-text reply. -/
def oracleConvertThenText : Nat → AssistantMsg :=
  fun n => if n = 0 then callConvertAbsent else textReply "done"

/-- Oracle requesting a function call with absent arguments on every turn. -/
def oracleAlwaysCall : Nat → AssistantMsg :=
  fun _ => callConvertAbsent

/-- Oracle whose first reply carries a malformed `convertCurrencies`
argument blob. -/
def oracleMalformedConvert : Nat → AssistantMsg :=
  fun _ =>
    { content := none,
      function_call := some { name := "convertCurrencies", arguments := ArgsBlob.malformed } }

/-- Oracle whose first reply carries a malformed `searchProducts` argument
blob. -/
def oracleMalformedSearch : Nat → AssistantMsg :=
  fun _ =>
    { content := none,
      function_call := some { name := "searchProducts", arguments := ArgsBlob.malformed } }

/-- Oracle: first a well-formed `searchProducts({query:"phone"})` call, then
a plain-text reply. -/
def oracleSearchPhone : Nat → AssistantMsg :=
  fun n =>
    if n = 0 then
      { content := none,
        function_call := some
          { name := "searchProducts",
            arguments := ArgsBlob.wellFormed { query := some "phone" } } }
    else textReply "ok"

/-- Oracle requesting `searchProducts` with an absent argument blob on every
turn. -/
def oracleSearchAbsent : Nat → AssistantMsg :=
  fun _ =>
    { content := none,
      function_call := some { name := "searchProducts", arguments := ArgsBlob.absent } }

/- ===================== Helper lemmas ===================== -/

/-- The empty needle occurs in every character list (`hay.includes("")`). -/
theorem containsSeq_nil (l : List Char) : containsSeq [] l = true := by
  induction l with
  | nil => rfl
  | cons c t ih => simp [containsSeq, firstMatches]

/-- Every product matches the empty query. -/
theorem productMatches_empty (p : Product) : productMatches p "" = true := by
  have h0 : jsToLower "" = "" := rfl
  have h1 : String.data "" = [] := rfl
  simp only [productMatches, jsIncludes, h0, h1, containsSeq_nil, Bool.or_self]

/-- `splitHyphen` always returns a non-empty segment list. -/
theorem splitHyphen_cons (cs : List Char) : ∃ seg segs, splitHyphen cs = seg :: segs := by
  induction cs with
  | nil => exact ⟨[], [], rfl⟩
  | cons c rest ih =>
    obtain ⟨seg, segs, h⟩ := ih
    by_cases hc : c = '-'
    · exact ⟨[], seg :: segs, by simp [splitHyphen, h, hc]⟩
    · exact ⟨c :: seg, segs, by simp [splitHyphen, h, hc]⟩

/-- The range branch on an amount starting with a hyphen: the segment before
the first hyphen is empty, so its `parseFloat` is `NaN` and the descriptive
invalid-range message is produced. -/
theorem convertRange_neg (rates : List (String × Frac)) (t fromCurrency toCurrency : String) :
    convertRange rates ("-" ++ t) fromCurrency toCurrency
      = "Invalid amount range: \"" ++ ("-" ++ t) ++ "\"." := by
  obtain ⟨seg, segs, hsp⟩ := splitHyphen_cons t.data
  have hd : ("-" ++ t).data = '-' :: t.data := rfl
  simp [convertRange, hd, splitHyphen, hsp, trimChars, parseFloatChars, parseFloatCore]

/-- The two response headers differ for every query (their first characters
differ). -/
theorem relatedHeader_ne_fallback (q : String) : relatedHeader q ≠ fallbackHeader q := by
  intro hEq
  have h1 : (relatedHeader q).data.head? = some 'H' := rfl
  rw [hEq] at h1
  have h2 : (fallbackHeader q).data.head? = some 'I' := rfl
  rw [h2] at h1
  exact absurd (Option.some.inj h1) (by decide)

/-- Case analysis on the JavaScript `x || d` default. -/
theorem jsOrElse_cases (o : Option String) (d : String) :
    jsOrElse o d = d ∨ o = some (jsOrElse o d) := by
  cases o with
  | none => exact Or.inl rfl
  | some s =>
    by_cases hs : s = ""
    · exact Or.inl (by simp [jsOrElse, hs])
    · exact Or.inr (by simp [jsOrElse, hs])

/- ===================== C7 ===================== -/

/-- C7: with the single provider rate `USD = 1.1`, converting the amount 100
from EUR to USD yields a string containing "110.00 USD", and converting the
range "100 - 200" yields a string containing both "110.00" and "220.00". -/
theorem convert_sample_values :
    jsIncludes (convertCurrencies (Except.ok [("USD", ⟨11, 10⟩)])
      (JsAmount.num (Frac.ofInt 100)) "EUR" "USD") "110.00 USD" = true
    ∧ jsIncludes (convertCurrencies (Except.ok [("USD", ⟨11, 10⟩)])
        (JsAmount.str "100 - 200") "EUR" "USD") "110.00" = true
    ∧ jsIncludes (convertCurrencies (Except.ok [("USD", ⟨11, 10⟩)])
        (JsAmount.str "100 - 200") "EUR" "USD") "220.00" = true := by
  refine ⟨?_, ?_, ?_⟩ <;> decide

/- ===================== C8 ===================== -/

/-- C8: on a non-empty rate table, a single numeric amount is converted
against every rate (one formatted result per table entry, joined by " | "),
while a range amount depends only on the rate for the requested target
currency, and — when the bounds parse and that rate is present and non-zero —
reports the converted minimum and maximum. -/
theorem convert_rate_usage (rates : List (String × Frac)) (h : rates ≠ [])
    (fromCurrency toCurrency s : String) (q : Frac) :
    (convertCurrencies (Except.ok rates) (JsAmount.num q) fromCurrency toCurrency
      = String.intercalate " | " (rates.map (singleResult q fromCurrency)))
    ∧ (∀ rates2, rates2 ≠ [] →
        lookupRate rates2 toCurrency = lookupRate rates toCurrency →
        jsIncludes s "-" = true →
        convertCurrencies (Except.ok rates2) (JsAmount.str s) fromCurrency toCurrency
          = convertCurrencies (Except.ok rates) (JsAmount.str s) fromCurrency toCurrency)
    ∧ (∀ mn mx rate,
        parseFloatChars (((splitHyphen s.data).map trimChars).getD 0 []) = some mn →
        parseFloatChars (((splitHyphen s.data).map trimChars).getD 1 []) = some mx →
        lookupRate rates toCurrency = some rate → rate.n ≠ 0 →
        jsIncludes s "-" = true →
        convertCurrencies (Except.ok rates) (JsAmount.str s) fromCurrency toCurrency
          = s ++ " " ++ fromCurrency ++ " ≈ " ++ toFixed2 (mn.mul rate) ++ " - " ++
              toFixed2 (mx.mul rate) ++ " " ++ toCurrency) := by
  refine ⟨?_, ?_, ?_⟩
  · cases rates with
    | nil => exact absurd rfl h
    | cons a r => rfl
  · intro rates2 h2 hlook hinc
    cases rates with
    | nil => exact absurd rfl h
    | cons a r =>
      cases rates2 with
      | nil => exact absurd rfl h2
      | cons b r2 =>
        simp only [convertCurrencies, convertWithRates, List.isEmpty_cons,
          Bool.false_eq_true, if_false, hinc, if_true]
        simp only [convertRange, hlook]
  · intro mn mx rate hmn hmx hrate hne hinc
    cases rates with
    | nil => exact absurd rfl h
    | cons a r =>
      simp only [convertCurrencies, convertWithRates, List.isEmpty_cons,
        Bool.false_eq_true, if_false, hinc, if_true]
      simp only [convertRange, hmn, hmx, hrate, if_neg hne]

/-- Closed instance of `convert_rate_usage`. -/
theorem convert_rate_usage_witness :
    convertCurrencies (Except.ok [("USD", ⟨2, 1⟩)]) (JsAmount.num (Frac.ofInt 3)) "EUR" "USD"
      = String.intercalate " | " ([("USD", (⟨2, 1⟩ : Frac))].map (singleResult (Frac.ofInt 3) "EUR")) :=
  (convert_rate_usage [("USD", ⟨2, 1⟩)] (by decide) "EUR" "USD" "1 - 2" (Frac.ofInt 3)).1

/- ===================== C10 ===================== -/

/-- C10: any string amount containing a hyphen takes the range branch, and a
negative string amount ("-" followed by anything) always produces the
descriptive invalid-range message on a non-empty rate table (the segment
before the first hyphen is empty, so its parse is `NaN`). -/
theorem convert_hyphen_branch (rates : List (String × Frac)) (h : rates ≠ [])
    (fromCurrency toCurrency s t : String) :
    (jsIncludes s "-" = true →
      convertCurrencies (Except.ok rates) (JsAmount.str s) fromCurrency toCurrency
        = convertRange rates s fromCurrency toCurrency)
    ∧ convertCurrencies (Except.ok rates) (JsAmount.str ("-" ++ t)) fromCurrency toCurrency
        = "Invalid amount range: \"" ++ ("-" ++ t) ++ "\"." := by
  constructor
  · intro hinc
    cases rates with
    | nil => exact absurd rfl h
    | cons a r =>
      simp only [convertCurrencies, convertWithRates, List.isEmpty_cons,
        Bool.false_eq_true, if_false, hinc, if_true]
  · have hinc : jsIncludes ("-" ++ t) "-" = true := by
      show containsSeq ['-'] ('-' :: t.data) = true
      simp [containsSeq, firstMatches]
    cases rates with
    | nil => exact absurd rfl h
    | cons a r =>
      simp only [convertCurrencies, convertWithRates, List.isEmpty_cons,
        Bool.false_eq_true, if_false, hinc, if_true]
      exact convertRange_neg (a :: r) t fromCurrency toCurrency

/-- Closed instance of `convert_hyphen_branch` at the amount "-50". -/
theorem convert_hyphen_branch_witness :
    convertCurrencies (Except.ok [("USD", ⟨2, 1⟩)]) (JsAmount.str "-50") "EUR" "USD"
      = "Invalid amount range: \"" ++ ("-" ++ "50") ++ "\"."
    ∧ convertCurrencies (Except.ok [("USD", ⟨2, 1⟩)]) (JsAmount.str "100 - 200") "EUR" "USD"
        = convertRange [("USD", ⟨2, 1⟩)] "100 - 200" "EUR" "USD" := by
  refine ⟨(convert_hyphen_branch [("USD", ⟨2, 1⟩)] (by decide) "EUR" "USD" "-50" "50").2, ?_⟩
  exact (convert_hyphen_branch [("USD", ⟨2, 1⟩)] (by decide) "EUR" "USD" "100 - 200" "x").1
    (by decide)

/- ===================== C2 ===================== -/

/-- C2 counterexample: with an unreadable catalog file, a `searchProducts`
dispatch makes the whole request fail — the orchestrator does see a raised
error from a tool, contradicting the claim that only the completion-provider
call may abort the request. -/
theorem tool_error_counterexample :
    processUserQuery oracleSearchPhone envBadCatalog "find a phone"
      = Except.error JsError.catalogStream := rfl

/-- C2 amended: the currency converter catches every provider failure and
returns the fixed error string (a value, not an exception), but the product
search propagates a catalog-stream failure as a rejected promise, which the
orchestrator does not catch. -/
theorem tool_error_policy (e e2 : Unit) (amount : JsAmount)
    (fromCurrency toCurrency q : String) (shuffle : List Product → List Product) :
    convertCurrencies (Except.error e) amount fromCurrency toCurrency
      = "An error occurred while converting currencies."
    ∧ searchProducts (Except.error e2) shuffle (some q)
        = Except.error JsError.catalogStream :=
  ⟨rfl, rfl⟩

/- ===================== C9 ===================== -/

/-- C9 counterexample: a body whose `query` is the empty string passes the
`@IsString()` validation and is forwarded to the orchestrator instead of
being rejected. -/
theorem dto_empty_counterexample :
    handleUserQuery (JsonVal.str "") = HttpOutcome.processed "" := rfl

/-- C9 amended: the endpoint rejects exactly the bodies whose `query` is not
a string; every string — the empty string included — passes validation and is
forwarded to `processUserQuery`. -/
theorem dto_validation (body : JsonVal) :
    ((handleUserQuery body == HttpOutcome.rejected) = !isStringVal body)
    ∧ handleUserQuery (JsonVal.str "") = HttpOutcome.processed "" := by
  constructor
  · cases body <;> rfl
  · rfl

/- ===================== C4 ===================== -/

/-- C4: for every query with at least one catalog match, the selection is the
first two matches in catalog order (hence at most 2, each individually
matching), and the header is the "related" wording — never the fallback
wording — which also heads the returned string. -/
theorem search_match_branch (shuffle : List Product → List Product)
    (catalog : List Product) (query : String)
    (h : matchedResults catalog query ≠ []) :
    selectedProducts shuffle catalog query = (matchedResults catalog query).take 2
    ∧ (selectedProducts shuffle catalog query).length ≤ 2
    ∧ (∀ p ∈ selectedProducts shuffle catalog query, productMatches p query = true)
    ∧ messageHeader catalog query = relatedHeader query
    ∧ messageHeader catalog query ≠ fallbackHeader query
    ∧ searchText shuffle catalog query
        = relatedHeader query ++ "\n" ++
            formatProducts ((matchedResults catalog query).take 2) ++
            "\n\nWould any of these interest you?" := by
  have hlen : 0 < (matchedResults catalog query).length := List.length_pos.mpr h
  have hsel : selectedProducts shuffle catalog query = (matchedResults catalog query).take 2 := by
    simp only [selectedProducts, if_pos hlen]
  have hhdr : messageHeader catalog query = relatedHeader query := by
    simp only [messageHeader, if_pos hlen]
  refine ⟨hsel, ?_, ?_, hhdr, ?_, ?_⟩
  · rw [hsel]; exact List.length_take_le 2 _
  · intro p hp
    rw [hsel] at hp
    have hp2 : p ∈ matchedResults catalog query := List.mem_of_mem_take hp
    exact (List.mem_filter.mp hp2).2
  · rw [hhdr]; exact relatedHeader_ne_fallback query
  · simp only [searchText, hsel, hhdr]

/-- Closed instance of `search_match_branch` on the sample catalog and the
query "phone". -/
theorem search_match_branch_witness :
    selectedProducts id demoCatalog "phone" = (matchedResults demoCatalog "phone").take 2
    ∧ messageHeader demoCatalog "phone" = relatedHeader "phone" := by
  have h := search_match_branch id demoCatalog "phone" (by decide)
  exact ⟨h.1, h.2.2.2.1⟩

/- ===================== C5 ===================== -/

/-- C5 counterexample: the empty query is a substring of every string, so on
the (non-empty) sample catalog the empty query matches every entry and
`searchProducts` takes the related branch — not the fallback branch the
claim asserts. -/
theorem search_empty_query_counterexample :
    matchedResults demoCatalog "" = demoCatalog
    ∧ messageHeader demoCatalog "" = relatedHeader ""
    ∧ messageHeader demoCatalog "" ≠ fallbackHeader "" := by
  refine ⟨by decide, by decide, by decide⟩

/-- C5 amended: the empty query matches every catalog entry (the empty string
is a substring of everything), so on a non-empty catalog it takes the related
path; the fallback path — `min(2, catalogSize)` entries under the
"suggestions" header — is taken exactly for queries matching zero entries
(for any shuffle preserving the catalog's size). -/
theorem search_empty_query_amended (shuffle : List Product → List Product)
    (catalog : List Product)
    (hshuffle : ∀ l, (shuffle l).length = l.length) :
    matchedResults catalog "" = catalog
    ∧ (catalog ≠ [] → messageHeader catalog "" = relatedHeader "")
    ∧ (∀ query, matchedResults catalog query = [] →
        (selectedProducts shuffle catalog query).length = min 2 catalog.length
        ∧ messageHeader catalog query = fallbackHeader query) := by
  have hall : matchedResults catalog "" = catalog := by
    apply List.filter_eq_self.mpr
    intro p _
    exact productMatches_empty p
  refine ⟨hall, ?_, ?_⟩
  · intro hne
    have hlen : 0 < (matchedResults catalog "").length := by
      rw [hall]; exact List.length_pos.mpr hne
    simp only [messageHeader, if_pos hlen]
  · intro query hm
    have hlen : ¬ 0 < (matchedResults catalog query).length := by
      rw [hm]; simp
    constructor
    · simp only [selectedProducts, if_neg hlen]
      rw [List.length_take, hshuffle]
    · simp only [messageHeader, if_neg hlen]

/-- Closed instance of `search_empty_query_amended`. -/
theorem search_empty_query_witness :
    matchedResults demoCatalog "" = demoCatalog :=
  (search_empty_query_amended id demoCatalog (fun _ => rfl)).1

/- ===================== C1 ===================== -/

/-- C1 counterexample: a function-call reply whose argument blob is malformed
JSON makes `JSON.parse` throw and `processUserQuery` abort — the dispatch
does not complete, contradicting the claim. -/
theorem malformed_args_counterexample :
    processUserQuery oracleMalformedConvert demoEnv "hi"
      = Except.error JsError.jsonParse := rfl

/-- A dispatch step that fails aborts the loop with that error. -/
theorem chatLoop_step_error (replies : Nat → AssistantMsg) (env : Env)
    (fuel idx : Nat) (msgs : List Message) (resp : AssistantMsg)
    (fc : FunctionCall) (e : JsError)
    (hfc : resp.function_call = some fc) (hstep : stepResult env fc = Except.error e) :
    chatLoop replies env (fuel + 1) idx msgs resp = Except.error e := by
  simp only [chatLoop, hfc, hstep]

/-- C1 amended: an absent (or empty) argument blob is parsed as the empty
argument object, but the dispatch then completes normally only for
`convertCurrencies` (whose code tolerates an `undefined` amount, answering
"Invalid amount: undefined"); for `searchProducts` the `undefined` query
makes `query.toLowerCase()` throw on every row of a non-empty catalog, and a
malformed blob makes `JSON.parse` itself throw — in both of those cases the
request aborts with the raised error. -/
theorem malformed_args_amended (env : Env) (q txt : String)
    (replies replies2 replies3 : Nat → AssistantMsg) (nm : String) (c c3 : Option String)
    (catalog : List Product)
    (hcat : env.catalogRead = Except.ok catalog) (hne : catalog ≠ [])
    (h0 : replies 0 = callConvertAbsent)
    (h1 : replies 1 = textReply txt)
    (h2 : replies2 0 = { content := c,
                         function_call := some { name := nm,
                                                 arguments := ArgsBlob.malformed } })
    (h3 : replies3 0 = { content := c3,
                         function_call := some { name := "searchProducts",
                                                 arguments := ArgsBlob.absent } }) :
    parseArgs ArgsBlob.absent = Except.ok {}
    ∧ processUserQuery replies env q
      = Except.ok (jsOrElse (some txt) "[No final response]",
          [Message.user q, Message.assistant callConvertAbsent,
           Message.function "convertCurrencies"
             (convertCurrencies env.fetch JsAmount.undef "undefined" "undefined")])
    ∧ processUserQuery replies3 env q = Except.error JsError.typeErrorUndefined
    ∧ processUserQuery replies2 env q = Except.error JsError.jsonParse := by
  refine ⟨rfl, ?_, ?_, ?_⟩
  · have hstep : processUserQuery replies env q
        = chatLoop replies env 4 2
            [Message.user q, Message.assistant callConvertAbsent,
             Message.function "convertCurrencies"
               (convertCurrencies env.fetch JsAmount.undef "undefined" "undefined")]
            (replies 1) := by
      simp only [processUserQuery, h0]
      rfl
    rw [hstep, h1]
    rfl
  · have hdisp : stepResult env { name := "searchProducts", arguments := ArgsBlob.absent }
        = Except.error JsError.typeErrorUndefined := by
      show searchProducts env.catalogRead env.shuffle none
          = Except.error JsError.typeErrorUndefined
      rw [hcat]
      cases catalog with
      | nil => exact absurd rfl hne
      | cons p r => rfl
    have hfc3 : (replies3 0).function_call
        = some { name := "searchProducts", arguments := ArgsBlob.absent } := by
      rw [h3]
    exact chatLoop_step_error replies3 env 4 1 [Message.user q] (replies3 0) _ _ hfc3 hdisp
  · simp only [processUserQuery, h2]
    rfl

/-- Closed instance of `malformed_args_amended`. -/
theorem malformed_args_witness :
    parseArgs ArgsBlob.absent = Except.ok {}
    ∧ processUserQuery oracleConvertThenText demoEnv "hi"
      = Except.ok (jsOrElse (some "done") "[No final response]",
          [Message.user "hi", Message.assistant callConvertAbsent,
           Message.function "convertCurrencies"
             (convertCurrencies demoEnv.fetch JsAmount.undef "undefined" "undefined")])
    ∧ processUserQuery oracleSearchAbsent demoEnv "hi"
        = Except.error JsError.typeErrorUndefined
    ∧ processUserQuery oracleMalformedSearch demoEnv "hi"
        = Except.error JsError.jsonParse :=
  malformed_args_amended demoEnv "hi" "done" oracleConvertThenText oracleMalformedSearch
    oracleSearchAbsent "searchProducts" none none demoCatalog rfl (by decide) rfl rfl rfl rfl

/- ===================== C3 ===================== -/

/-- C3 counterexample: a reply sequence whose function calls carry malformed
argument blobs makes `processUserQuery` abort with a `JSON.parse` error
instead of returning a string, contradicting "never crashing". -/
theorem step_limit_counterexample :
    processUserQuery oracleMalformedSearch demoEnv "find a phone"
      = Except.error JsError.jsonParse := rfl

/-- The bounded loop: as long as every requested dispatch step succeeds, the
loop returns a string, grows the transcript by two messages per dispatch (so
at most `2 * fuel`), and the output is the placeholder or some reply's
content. -/
theorem chatLoop_bound (replies : Nat → AssistantMsg) (env : Env)
    (hdisp : ∀ n fc, (replies n).function_call = some fc →
      ∃ s, stepResult env fc = Except.ok s) :
    ∀ fuel idx msgs resp,
      (∀ fc, resp.function_call = some fc → ∃ s, stepResult env fc = Except.ok s) →
      ∃ out msgs2, chatLoop replies env fuel idx msgs resp = Except.ok (out, msgs2)
        ∧ msgs2.length ≤ msgs.length + 2 * fuel
        ∧ (out = "[No final response]" ∨ resp.content = some out
            ∨ ∃ n, (replies n).content = some out) := by
  intro fuel
  induction fuel with
  | zero =>
    intro idx msgs resp _
    refine ⟨jsOrElse resp.content "[No final response]", msgs, rfl, by omega, ?_⟩
    rcases jsOrElse_cases resp.content "[No final response]" with hc | hc
    · exact Or.inl hc
    · exact Or.inr (Or.inl hc)
  | succ fuel ih =>
    intro idx msgs resp hresp
    cases hfc : resp.function_call with
    | none =>
      refine ⟨jsOrElse resp.content "[No final response]", msgs, ?_, by omega, ?_⟩
      · simp only [chatLoop, hfc]
      · rcases jsOrElse_cases resp.content "[No final response]" with hc | hc
        · exact Or.inl hc
        · exact Or.inr (Or.inl hc)
    | some fc =>
      obtain ⟨s, hs⟩ := hresp fc hfc
      obtain ⟨out, msgs2, heq, hlen, hcontent⟩ :=
        ih (idx + 1)
          (msgs ++ [Message.assistant resp, Message.function fc.name s])
          (replies idx) (fun fc2 h2 => hdisp idx fc2 h2)
      refine ⟨out, msgs2, ?_, ?_, ?_⟩
      · simp only [chatLoop, hfc, hs]
        exact heq
      · simp only [List.length_append, List.length_cons, List.length_nil] at hlen
        omega
      · rcases hcontent with h | h | h
        · exact Or.inl h
        · exact Or.inr (Or.inr ⟨idx, h⟩)
        · exact Or.inr (Or.inr h)

/-- C3 amended: whenever every requested dispatch step succeeds (the argument
blob parses and the tool does not raise), `processUserQuery` returns a string
after at most 5 dispatch cycles (transcript of at most `1 + 2·5` messages),
and that string is a reply's content or the placeholder; a failing dispatch
step aborts the request with an error instead, still within the step limit. -/
theorem step_limit_amended (replies : Nat → AssistantMsg) (env : Env) (q : String)
    (hdisp : ∀ n fc, (replies n).function_call = some fc →
      ∃ s, stepResult env fc = Except.ok s) :
    ∃ out msgs, processUserQuery replies env q = Except.ok (out, msgs)
      ∧ msgs.length ≤ 11
      ∧ (out = "[No final response]" ∨ ∃ n, (replies n).content = some out) := by
  obtain ⟨out, msgs2, heq, hlen, hcontent⟩ :=
    chatLoop_bound replies env hdisp 5 1 [Message.user q] (replies 0)
      (fun fc h => hdisp 0 fc h)
  refine ⟨out, msgs2, heq, ?_, ?_⟩
  · simp only [List.length_cons, List.length_nil] at hlen
    omega
  · rcases hcontent with h | h | h
    · exact Or.inl h
    · exact Or.inr ⟨0, h⟩
    · exact Or.inr h

/-- Closed instance of `step_limit_amended` on an oracle that requests a
function call on every turn. -/
theorem step_limit_witness :
    ∃ out msgs, processUserQuery oracleAlwaysCall demoEnv "hi" = Except.ok (out, msgs)
      ∧ msgs.length ≤ 11
      ∧ (out = "[No final response]" ∨ ∃ n, (oracleAlwaysCall n).content = some out) := by
  apply step_limit_amended
  intro n fc h
  have h2 : (oracleAlwaysCall n).function_call
      = some { name := "convertCurrencies", arguments := ArgsBlob.absent } := rfl
  rw [h2] at h
  cases h
  exact ⟨convertCurrencies demoEnv.fetch JsAmount.undef "undefined" "undefined", rfl⟩

/- ===================== C6 ===================== -/

/-- Concatenating two valid pair sequences yields a valid pair sequence. -/
theorem validPairs_append : ∀ xs ys, validPairs xs = true → validPairs ys = true →
    validPairs (xs ++ ys) = true
  | [], ys, _, hy => hy
  | Message.assistant m :: Message.function nm c :: rest, ys, hx, hy => by
    have hx2 := hx
    simp only [validPairs, Bool.and_eq_true] at hx2
    have ih := validPairs_append rest ys hx2.2 hy
    show validPairs (Message.assistant m :: Message.function nm c :: (rest ++ ys)) = true
    simp only [validPairs, Bool.and_eq_true]
    exact ⟨hx2.1, ih⟩
  | Message.user c :: rest, ys, hx, hy => by simp [validPairs] at hx
  | Message.function nm c :: rest, ys, hx, hy => by simp [validPairs] at hx
  | [Message.assistant m], ys, hx, hy => by simp [validPairs] at hx
  | Message.assistant m :: Message.user c :: rest, ys, hx, hy => by simp [validPairs] at hx
  | Message.assistant m :: Message.assistant m2 :: rest, ys, hx, hy => by
    simp [validPairs] at hx

/-- A valid pair sequence contains no user message. -/
theorem validPairs_no_user : ∀ xs, validPairs xs = true → xs.filter isUserMsg = []
  | [], _ => rfl
  | Message.assistant m :: Message.function nm c :: rest, hx => by
    have hx2 := hx
    simp only [validPairs, Bool.and_eq_true] at hx2
    have ih := validPairs_no_user rest hx2.2
    simp [List.filter, isUserMsg, ih]
  | Message.user c :: rest, hx => by simp [validPairs] at hx
  | Message.function nm c :: rest, hx => by simp [validPairs] at hx
  | [Message.assistant m], hx => by simp [validPairs] at hx
  | Message.assistant m :: Message.user c :: rest, hx => by simp [validPairs] at hx
  | Message.assistant m :: Message.assistant m2 :: rest, hx => by simp [validPairs] at hx

/-- Any message followed by a valid pair sequence satisfies the pairwise
adjacency condition. -/
theorem validPairs_chain : ∀ xs, validPairs xs = true → ∀ m, chainOK (m :: xs) = true
  | [], _, m => rfl
  | Message.assistant a :: Message.function nm c :: rest, hx, m => by
    have hx2 := hx
    simp only [validPairs, Bool.and_eq_true] at hx2
    have ih := validPairs_chain rest hx2.2 (Message.function nm c)
    have hadj1 : adjOK m (Message.assistant a) = true := by cases m <;> rfl
    simp only [chainOK, Bool.and_eq_true]
    exact ⟨hadj1, hx2.1, ih⟩
  | Message.user c :: rest, hx, m => by simp [validPairs] at hx
  | Message.function nm c :: rest, hx, m => by simp [validPairs] at hx
  | [Message.assistant a], hx, m => by simp [validPairs] at hx
  | Message.assistant a :: Message.user c :: rest, hx, m => by simp [validPairs] at hx
  | Message.assistant a :: Message.assistant a2 :: rest, hx, m => by simp [validPairs] at hx

/-- The loop invariant: starting from the seeded user message followed by a
valid pair sequence, every successful run returns the user message followed
by a valid pair sequence. -/
theorem chatLoop_pairs (replies : Nat → AssistantMsg) (env : Env) :
    ∀ fuel idx q tail resp out msgs,
      validPairs tail = true →
      chatLoop replies env fuel idx (Message.user q :: tail) resp
        = Except.ok (out, msgs) →
      ∃ tail2, msgs = Message.user q :: tail2 ∧ validPairs tail2 = true := by
  intro fuel
  induction fuel with
  | zero =>
    intro idx q tail resp out msgs hv heq
    simp only [chatLoop, Except.ok.injEq, Prod.mk.injEq] at heq
    exact ⟨tail, heq.2.symm, hv⟩
  | succ fuel ih =>
    intro idx q tail resp out msgs hv heq
    cases hfc : resp.function_call with
    | none =>
      simp only [chatLoop, hfc, Except.ok.injEq, Prod.mk.injEq] at heq
      exact ⟨tail, heq.2.symm, hv⟩
    | some fc =>
      cases hstep : stepResult env fc with
      | error e =>
        simp only [chatLoop, hfc, hstep] at heq
        exact Except.noConfusion heq
      | ok s =>
        simp only [chatLoop, hfc, hstep, List.cons_append] at heq
        have hpair : validPairs
            (tail ++ [Message.assistant resp, Message.function fc.name s]) = true := by
          apply validPairs_append tail _ hv
          simp [validPairs, adjOK, hfc]
        exact ih (idx + 1) q
          (tail ++ [Message.assistant resp, Message.function fc.name s])
          (replies idx) out msgs hpair heq

/-- C6: every transcript a successful `processUserQuery` run builds starts
with exactly one user message, and every function-result message immediately
follows the assistant message that requested the call and carries the same
function name. -/
theorem transcript_invariant (replies : Nat → AssistantMsg) (env : Env)
    (q out : String) (msgs : List Message)
    (h : processUserQuery replies env q = Except.ok (out, msgs)) :
    transcriptOK msgs = true := by
  obtain ⟨tail2, rfl, hv⟩ :=
    chatLoop_pairs replies env 5 1 q [] (replies 0) out msgs rfl h
  have hfilter : (Message.user q :: tail2).filter isUserMsg = [Message.user q] := by
    simp [List.filter, isUserMsg, validPairs_no_user tail2 hv]
  have hchain := validPairs_chain tail2 hv (Message.user q)
  simp [transcriptOK, startsWithUser, userCount, hfilter, hchain]

/-- Closed instance of `transcript_invariant`. -/
theorem transcript_invariant_witness :
    ∃ out msgs, processUserQuery oracleConvertThenText demoEnv "hi"
      = Except.ok (out, msgs) ∧ transcriptOK msgs = true := by
  refine ⟨_, _, rfl, ?_⟩
  exact transcript_invariant oracleConvertThenText demoEnv "hi" _ _ rfl
